import Mathlib

/-!
Verification development for the magic_notes repository: a shallow embedding
of the frontend list-state hook (`useNotes`), the Zod validation schemas,
the API client and the MSW mock handlers, together with proofs of the
specification's claims about them.

Strings are modelled by Lean `String` (a list of Unicode scalar values);
`trim` and `toLowerCase` are modelled on the ASCII fragment, which is the
fragment the schemas' constraints and examples exercise.  JavaScript numbers
that hold integers (ids, page numbers, HTTP statuses) are modelled by `Int`,
counts and sizes by `Nat`.
-/

namespace MagicNotes

/-! ## JavaScript string primitives -/

/-- The ASCII whitespace characters removed by `String.prototype.trim`
(space, tab, line feed, carriage return; the model restricts the JS `\s`
class to its ASCII core). -/
def isJsWs (c : Char) : Bool :=
  decide (c.toNat = 32 ∨ c.toNat = 9 ∨ c.toNat = 10 ∨ c.toNat = 13)

/-- `trim` on the character list: drop whitespace from the front, then from
the back. -/
def trimChars (l : List Char) : List Char :=
  ((l.dropWhile isJsWs).reverse.dropWhile isJsWs).reverse

/-- `String.prototype.trim`. -/
def jsTrim (s : String) : String :=
  ⟨trimChars s.data⟩

/-- `String.prototype.toLowerCase` on the ASCII fragment: lower each
character (`Char.toLower` is exactly the ASCII `A–Z` to `a–z` map). -/
def jsToLower (s : String) : String :=
  ⟨s.data.map Char.toLower⟩

/-! ## Tag normalization (`NoteInSchema`'s tags pipeline, part_010)

`z.array(z.string().trim().toLowerCase()).default([]).transform(dedupe)`:
each element is trimmed then lowercased, then the transform drops empty
strings and duplicates, keeping the first occurrence. -/

/-- The element transform `z.string().trim().toLowerCase()`. -/
def normalizeTag (s : String) : String :=
  jsToLower (jsTrim s)

/-- The `transform` body: `tags.filter(tag => !tag || seen.has(tag) ? false
: (seen.add(tag), true))` with `seen` the set of tags already kept. -/
def dedupeTags (seen : List String) : List String → List String
  | [] => []
  | t :: ts =>
    if t = "" ∨ t ∈ seen then dedupeTags seen ts
    else t :: dedupeTags (t :: seen) ts

/-- The full tags pipeline of `NoteInSchema`. -/
def normalizeTags (tags : List String) : List String :=
  dedupeTags [] (tags.map normalizeTag)

/-! ## Data model (`types.ts`, part_012) -/

/-- A note as held by the client (`interface Note`). -/
structure Note where
  id : Int
  title : String
  content : String
  tags : List String
  created_at : String
  updated_at : String
deriving DecidableEq, Repr

/-- A tag (`interface Tag`). -/
structure Tag where
  id : Int
  name : String
deriving DecidableEq, Repr

/-- Filter state (`interface NoteFilters`). -/
structure NoteFilters where
  bodyText : String
  includeTitle : Bool
  tags : List String
deriving DecidableEq, Repr

/-- Payload for note creation (`CreateNoteDTO`). -/
structure CreateNoteDTO where
  title : String
  content : String
  tags : List String
deriving DecidableEq, Repr

/-- Payload for note update (`UpdateNoteDTO`). -/
structure UpdateNoteDTO where
  title : String
  content : String
  tags : List String
deriving DecidableEq, Repr

/-! ## The list-state hook (`useNotes`, part_009)

The hook's `useState` cells form a state record; each operation of the hook
becomes a function on that record.  An `await`ed API call is modelled by
passing the call's outcome (`Except` with the thrown error's message, since
the API client only throws `Error` instances) as an argument; `throw err`
becomes an `Except.error` result handed back to the caller. -/

namespace UseNotes

open MagicNotes

/-- The hook's state cells: `notes`, `tags`, `filters`, `isLoading`,
`error`, `currentPage`, `pageSize`. -/
structure HookState where
  notes : List Note
  tags : List Tag
  filters : NoteFilters
  isLoading : Bool
  error : Option String
  currentPage : Int
  pageSize : Nat
deriving DecidableEq, Repr

/-- `setCurrentPage` is the raw `useState` setter (line 39): no clamping. -/
def setCurrentPage (s : HookState) (page : Int) : HookState :=
  { s with currentPage := page }

/-- `setFilters` together with the `useEffect` on `[filters]` that resets
the page to 1 (lines 42–45). -/
def setFilters (s : HookState) (filters : NoteFilters) : HookState :=
  { s with filters := filters, currentPage := 1 }

/-- `setPageSize` (lines 47–51); the `savePageSize` localStorage write is
outside the model. -/
def setPageSize (s : HookState) (size : Nat) : HookState :=
  { s with pageSize := size, currentPage := 1 }

/-- `totalPages = Math.max(1, Math.ceil(notes.length / pageSize))`
(lines 53–55), with the real-valued ceiling division taken over `ℚ`. -/
def totalPages (notes : List Note) (pageSize : Nat) : Nat :=
  max 1 (Int.toNat ⌈(notes.length : ℚ) / (pageSize : ℚ)⌉)

/-- `Array.prototype.slice(start, end)` with JavaScript's negative-index
and clamping semantics. -/
def jsSlice {α : Type} (l : List α) (start stop : Int) : List α :=
  let len : Int := l.length
  let s := if start < 0 then max (len + start) 0 else min start len
  let e := if stop < 0 then max (len + stop) 0 else min stop len
  (l.drop s.toNat).take (e - s).toNat

/-- `paginatedNotes` (lines 57–61): `notes.slice(startIndex, endIndex)`
with `startIndex = (currentPage - 1) * pageSize`. -/
def paginatedNotes (notes : List Note) (currentPage : Int) (pageSize : Nat) : List Note :=
  let startIndex := (currentPage - 1) * (pageSize : Int)
  jsSlice notes startIndex (startIndex + (pageSize : Int))

/-- `nextPage` (lines 63–65): `setCurrentPage(prev => Math.min(prev + 1,
totalPages))`. -/
def nextPage (s : HookState) : HookState :=
  setCurrentPage s (min (s.currentPage + 1) (totalPages s.notes s.pageSize : Int))

/-- `prevPage` (lines 67–69): `setCurrentPage(prev => Math.max(prev - 1, 1))`. -/
def prevPage (s : HookState) : HookState :=
  setCurrentPage s (max (s.currentPage - 1) 1)

/-- The state right after `refreshNotes` starts (lines 72–73):
`setIsLoading(true); setError(null)`. -/
def refreshNotesEntry (s : HookState) : HookState :=
  { s with isLoading := true, error := none }

/-- `refreshNotes` (lines 71–83) run to completion with the given outcome of
`api.getNotes(filters)`: on success the fetched notes replace the cache, on
failure the error message is recorded; `finally` clears `isLoading`. -/
def refreshNotes (s : HookState) (apiResult : Except String (List Note)) : HookState :=
  let s1 := refreshNotesEntry s
  let s2 :=
    match apiResult with
    | .ok fetchedNotes => { s1 with notes := fetchedNotes }
    | .error message => { s1 with error := some message }
  { s2 with isLoading := false }

/-- The optimistic note synthesized by `createNote` (lines 104–111);
`Date.now()` and `new Date().toISOString()` are the `optimisticId` and
`now` arguments. -/
def optimisticNote (optimisticId : Int) (now : String) (noteData : CreateNoteDTO) : Note :=
  { id := optimisticId
    title := noteData.title
    content := noteData.content
    tags := noteData.tags
    created_at := now
    updated_at := now }

/-- `createNote` (lines 103–126): prepend the optimistic note and clear the
error; on success replace it by the server note and run the follow-up
`refreshNotes` with outcome `refreshResult`; on failure drop every note
carrying the optimistic id, record the message, and re-throw. -/
def createNote (s : HookState) (optimisticId : Int) (now : String)
    (noteData : CreateNoteDTO) (apiResult : Except String Note)
    (refreshResult : Except String (List Note)) : HookState × Except String Unit :=
  let opt := optimisticNote optimisticId now noteData
  let s1 := { s with notes := opt :: s.notes, error := none }
  match apiResult with
  | .ok createdNote =>
    let s2 := { s1 with notes := s1.notes.map fun n => if n.id = opt.id then createdNote else n }
    (refreshNotes s2 refreshResult, .ok ())
  | .error err =>
    ({ s1 with notes := s1.notes.filter (fun n => n.id != opt.id), error := some err },
      .error err)

/-- The fallback used when `notes.find(n => n.id === id)` misses in
`updateNote`: the source casts `{}` to `Note`, so the merged note's `id`
and `created_at` are JS `undefined`; they are modelled by defaults, and
are never observable because the subsequent `map` replaces nothing when no
note has the target id. -/
def emptyNoteBase : Note :=
  { id := 0, title := "", content := "", tags := [], created_at := "", updated_at := "" }

/-- The `updatedNote` synthesized by `updateNote` (lines 130–136): the
found cached note — or the `{}` fallback — merged with the new fields. -/
def mergedNote (s : HookState) (id : Int) (noteData : UpdateNoteDTO)
    (now : String) : Note :=
  let base := match s.notes.find? (fun n => n.id == id) with
    | some n => n
    | none => emptyNoteBase
  { base with
    title := noteData.title
    content := noteData.content
    tags := noteData.tags
    updated_at := now }

/-- The optimistic phase of `updateNote` (lines 129–139): map the merged
note over the cache, clearing the error. -/
def updateNoteOptimistic (s : HookState) (id : Int) (noteData : UpdateNoteDTO)
    (now : String) : HookState :=
  { s with
    notes := s.notes.map (fun n => if n.id = id then mergedNote s id noteData now else n)
    error := none }

/-- `updateNote` (lines 128–150): optimistic apply, then on success replace
the entry by the server note; on failure restore the `previousNotes`
snapshot, record the message, and re-throw. -/
def updateNote (s : HookState) (id : Int) (noteData : UpdateNoteDTO) (now : String)
    (apiResult : Except String Note) : HookState × Except String Unit :=
  let previousNotes := s.notes
  let s1 := updateNoteOptimistic s id noteData now
  match apiResult with
  | .ok serverNote =>
    ({ s1 with notes := s1.notes.map fun n => if n.id = id then serverNote else n }, .ok ())
  | .error err =>
    ({ s1 with notes := previousNotes, error := some err }, .error err)

/-- `deleteNote` (lines 152–165): optimistically filter the entry out, then
on failure restore the snapshot, record the message, and re-throw. -/
def deleteNote (s : HookState) (id : Int) (apiResult : Except String Unit) :
    HookState × Except String Unit :=
  let previousNotes := s.notes
  let s1 := { s with notes := s.notes.filter (fun n => n.id != id), error := none }
  match apiResult with
  | .ok _ => (s1, .ok ())
  | .error err =>
    ({ s1 with notes := previousNotes, error := some err }, .error err)

/-- `clearError` (lines 167–169). -/
def clearError (s : HookState) : HookState :=
  { s with error := none }

end UseNotes

/-! ## JSON values and the Zod schemas (part_010)

Response bodies arrive as untyped JSON; a Zod schema is a function from a
JSON value to `Option` of the parsed value (`none` models a thrown
`ZodError`).  The error-issue lists of Zod are abstracted to acceptance
versus rejection. -/

/-- Untyped JSON values (numbers restricted to the integers the API uses). -/
inductive Json where
  | null : Json
  | bool (b : Bool) : Json
  | num (n : Int) : Json
  | str (s : String) : Json
  | arr (elems : List Json) : Json
  | obj (fields : List (String × Json)) : Json

/-- Object field lookup (zod ignores unknown keys, so only the sought key
matters). -/
def Json.getField : Json → String → Option Json
  | .obj fields, key => (fields.find? (fun f => f.1 == key)).map (·.2)
  | _, _ => none

/-- `z.string()`. -/
def zodString : Json → Option String
  | .str s => some s
  | _ => none

/-- `z.number()` (on the integral values the API uses). -/
def zodNumber : Json → Option Int
  | .num n => some n
  | _ => none

/-- Element-wise string parsing for `z.array(z.string())` (the issue lists
of failing elements are abstracted to overall rejection). -/
def zodStrings : List Json → Option (List String)
  | [] => some []
  | j :: js =>
    match zodString j, zodStrings js with
    | some s, some rest => some (s :: rest)
    | _, _ => none

/-- `z.array(z.string())`. -/
def zodStringArray : Json → Option (List String)
  | .arr elems => zodStrings elems
  | _ => none

/-- `TagSchema.parse`: `{id: z.number(), name: z.string()}` — shape only,
no constraints. -/
def TagParse (j : Json) : Option Tag := do
  let id ← (j.getField "id").bind zodNumber
  let name ← (j.getField "name").bind zodString
  some { id := id, name := name }

/-- `TagInSchema.parse` applied to the `name` field:
`z.string().trim().toLowerCase().min(1).max(50)`. -/
def TagInParse (name : String) : Option String :=
  let n := jsToLower (jsTrim name)
  if 1 ≤ n.length ∧ n.length ≤ 50 then some n else none

/-- `NoteOutSchema.parse`: all six fields are plain `z.number()` /
`z.string()` / `z.array(z.string())` — shape only, no length or emptiness
constraints. -/
def NoteOutParse (j : Json) : Option Note := do
  let id ← (j.getField "id").bind zodNumber
  let title ← (j.getField "title").bind zodString
  let content ← (j.getField "content").bind zodString
  let tags ← (j.getField "tags").bind zodStringArray
  let created_at ← (j.getField "created_at").bind zodString
  let updated_at ← (j.getField "updated_at").bind zodString
  some { id := id, title := title, content := content, tags := tags,
         created_at := created_at, updated_at := updated_at }

/-- The value produced by `NoteInSchema.parse`. -/
structure NoteIn where
  title : String
  content : String
  tags : List String
deriving DecidableEq, Repr

/-- `NoteInSchema.parse` applied to a note payload: title and content are
trimmed and then checked (`min(1)`, `max(200)` resp. `max(10000)`), the
tags run through the normalization pipeline and never fail. -/
def NoteInParse (title content : String) (tags : List String) : Option NoteIn :=
  let t := jsTrim title
  let c := jsTrim content
  if 1 ≤ t.length ∧ t.length ≤ 200 then
    if 1 ≤ c.length ∧ c.length ≤ 10000 then
      some { title := t, content := c, tags := normalizeTags tags }
    else none
  else none

/-! ## The API client (`src/frontend/src/api/client.ts`)

`fetch` is modelled by passing its outcome as an argument: either a
transport failure (`TypeError`, normalized to a connection error) or an
`HttpResponse`.  Each operation returns its result together with the
validated body it sent, `none` meaning the request was never issued. -/

/-- A settled `fetch` response: `ok`, `status`, and the parsed JSON body
(`response.json()`, with a failed parse absorbed into `Json.null` just as
the source absorbs it into `{}`). -/
structure HttpResponse where
  ok : Bool
  status : Int
  body : Json

/-- Outcome of a `fetch` call. -/
inductive FetchOutcome where
  | response (r : HttpResponse) : FetchOutcome
  | networkFailure : FetchOutcome

/-- The `APIError` kinds the client can throw (`client.ts`): input
validation (`Invalid note data` / `Invalid tag data`, thrown before any
request), HTTP error, response-schema violation, connection error.  The
formatted issue text carried by the message is abstracted away. -/
inductive ClientError where
  | invalidInput : ClientError
  | httpError (status : Int) (message : String) : ClientError
  | responseInvalid (status : Int) : ClientError
  | connectionError : ClientError
deriving DecidableEq, Repr

/-- `errorData.message || fallback` — JS `||` also rejects an empty string. -/
def errorMessage (body : Json) (fallback : String) : String :=
  match (body.getField "message").bind zodString with
  | some m => if m = "" then fallback else m
  | none => fallback

/-- `handleResponse` (client.ts lines 36–63): non-2xx becomes an `APIError`
carrying the server message, then the body is validated against the
schema. -/
def handleResponse {α : Type} (parse : Json → Option α) (r : HttpResponse) :
    Except ClientError α :=
  if r.ok then
    match parse r.body with
    | some v => .ok v
    | none => .error (.responseInvalid r.status)
  else
    .error (.httpError r.status (errorMessage r.body ("HTTP error " ++ toString r.status)))

namespace Client

open MagicNotes

/-- `createNote` (client.ts lines 108–131): validate the payload with
`NoteInSchema` first — a `ZodError` becomes `Invalid note data` with no
request issued — then `fetch` and `handleResponse` with `NoteOutSchema`. -/
def createNote (noteData : CreateNoteDTO) (outcome : FetchOutcome) :
    Except ClientError Note × Option NoteIn :=
  match NoteInParse noteData.title noteData.content noteData.tags with
  | none => (.error .invalidInput, none)
  | some validatedData =>
    match outcome with
    | .networkFailure => (.error .connectionError, some validatedData)
    | .response r => (handleResponse NoteOutParse r, some validatedData)

/-- `updateNote` (client.ts lines 133–156): same shape as `createNote`,
with the id only naming the URL. -/
def updateNote (_id : Int) (noteData : UpdateNoteDTO) (outcome : FetchOutcome) :
    Except ClientError Note × Option NoteIn :=
  match NoteInParse noteData.title noteData.content noteData.tags with
  | none => (.error .invalidInput, none)
  | some validatedData =>
    match outcome with
    | .networkFailure => (.error .connectionError, some validatedData)
    | .response r => (handleResponse NoteOutParse r, some validatedData)

/-- `createTag` (client.ts lines 192–215): validate with `TagInSchema`
first, then `fetch` and `handleResponse` with `TagSchema`. -/
def createTag (name : String) (outcome : FetchOutcome) :
    Except ClientError Tag × Option String :=
  match TagInParse name with
  | none => (.error .invalidInput, none)
  | some validatedName =>
    match outcome with
    | .networkFailure => (.error .connectionError, some validatedName)
    | .response r => (handleResponse TagParse r, some validatedName)

end Client

/-! ## The MSW mock handlers (part_008), `POST /tags/` -/

/-- The mock module's mutable tag state. -/
structure MockState where
  mockTags : List Tag
  nextTagId : Int
deriving DecidableEq, Repr

/-- The seeded `mockTags` (part_008 lines 33–36). -/
def initialMockState : MockState :=
  { mockTags := [{ id := 1, name := "test" }, { id := 2, name := "sample" }]
    nextTagId := 3 }

/-- Serialization of a tag back to JSON (`HttpResponse.json(validatedTag)`;
the `TagSchema.parse` round-trip on it always succeeds). -/
def tagJson (t : Tag) : Json :=
  .obj [("id", .num t.id), ("name", .str t.name)]

/-- The `POST /tags/` handler (part_008 lines 198–226): parse the body with
`TagInSchema` (`none` models the unhandled `ZodError`); if a stored tag
matches the name case-insensitively, answer 400 `Tag already exists`;
otherwise append a fresh tag and answer 201 with it. -/
def postTags (st : MockState) (body : Json) : Option (MockState × Int × Json) :=
  match (body.getField "name").bind zodString with
  | none => none
  | some raw =>
    match TagInParse raw with
    | none => none
    | some name =>
      if st.mockTags.any (fun t => jsToLower t.name == jsToLower name) then
        some (st, 400, .obj [("message", .str "Tag already exists")])
      else
        let newTag : Tag := { id := st.nextTagId, name := name }
        some ({ mockTags := st.mockTags ++ [newTag], nextTagId := st.nextTagId + 1 },
          201, tagJson newTag)

/-- Serialization of a note to the JSON shape the API returns (used to feed
`NoteOutSchema` with response bodies). -/
def noteJson (n : Note) : Json :=
  .obj [("id", .num n.id), ("title", .str n.title), ("content", .str n.content),
        ("tags", .arr (n.tags.map .str)),
        ("created_at", .str n.created_at), ("updated_at", .str n.updated_at)]

/-! ## Concrete sample data for witnesses and counterexamples -/

/-- The hook's initial filter state (part_009 lines 32–36). -/
def defaultFilters : NoteFilters :=
  { bodyText := "", includeTitle := true, tags := [] }

/-- A list of `k` distinct sample notes with ids `1..k`. -/
def sampleNotes (k : Nat) : List Note :=
  (List.range k).map fun i =>
    { id := (i : Int) + 1, title := "Note", content := "Content", tags := [],
      created_at := "2025-01-01", updated_at := "2025-01-01" }

/-- A hook state holding 20 notes at the default page size 9, page 1. -/
def pageState : UseNotes.HookState :=
  { notes := sampleNotes 20, tags := [], filters := defaultFilters,
    isLoading := false, error := none, currentPage := 1, pageSize := 9 }

/-- A hook state with an empty cache and a pending error value. -/
def errState : UseNotes.HookState :=
  { notes := [], tags := [], filters := defaultFilters,
    isLoading := false, error := some "boom", currentPage := 1, pageSize := 9 }

/-- A response note carrying an empty title (and content), as a server
could emit it. -/
def emptyTitleNote : Note :=
  { id := 1, title := "", content := "", tags := [], created_at := "", updated_at := "" }

/-- A hook state whose single cached note has id 5, the same value the
modelled `Date.now()` will produce in the colliding run. -/
def collideState : UseNotes.HookState :=
  { notes := [{ id := 5, title := "keep me", content := "c", tags := [],
                created_at := "2025-01-01", updated_at := "2025-01-01" }],
    tags := [], filters := defaultFilters,
    isLoading := false, error := none, currentPage := 1, pageSize := 9 }

/-! ## Lemmas about the string primitives -/

theorem char_toNat_inj {a b : Char} (h : a.toNat = b.toNat) : a = b := by
  rw [← Char.ofNat_toNat a, ← Char.ofNat_toNat b, h]

theorem toNat_toLower (c : Char) :
    (Char.toLower c).toNat =
      if 65 ≤ c.toNat ∧ c.toNat ≤ 90 then c.toNat + 32 else c.toNat := by
  rw [Char.toLower]
  by_cases h : 65 ≤ c.toNat ∧ c.toNat ≤ 90
  · rw [if_pos h, if_pos h]
    have hv : (c.toNat + 32).isValidChar := Or.inl (by omega)
    rw [Char.ofNat, dif_pos hv]
    rfl
  · rw [if_neg h, if_neg h]

theorem toLower_toLower (c : Char) :
    Char.toLower (Char.toLower c) = Char.toLower c := by
  apply char_toNat_inj
  rw [toNat_toLower, toNat_toLower]
  split_ifs <;> omega

theorem isJsWs_toLower (c : Char) : isJsWs (Char.toLower c) = isJsWs c := by
  simp only [isJsWs, toNat_toLower]
  split_ifs with h
  · rw [decide_eq_decide]
    omega
  · rfl

theorem dropWhile_dropWhile {α : Type} (p : α → Bool) (l : List α) :
    (l.dropWhile p).dropWhile p = l.dropWhile p := by
  induction l with
  | nil => rfl
  | cons a l ih =>
    by_cases h : p a
    · rw [List.dropWhile_cons_of_pos h, ih]
    · rw [List.dropWhile_cons_of_neg h, List.dropWhile_cons_of_neg h]

theorem dropWhile_map_of_pred {α : Type} (f : α → α) (p : α → Bool)
    (hf : ∀ a, p (f a) = p a) (l : List α) :
    (l.map f).dropWhile p = (l.dropWhile p).map f := by
  rw [List.dropWhile_map]
  have : (p ∘ f) = p := by
    funext a
    exact hf a
  rw [this]

/-- Front-trimming commutes with a character map that preserves
whitespace-ness; hence so does full trimming. -/
theorem trimChars_map_toLower (l : List Char) :
    trimChars (l.map Char.toLower) = (trimChars l).map Char.toLower := by
  unfold trimChars
  rw [dropWhile_map_of_pred _ _ isJsWs_toLower, ← List.map_reverse,
    dropWhile_map_of_pred _ _ isJsWs_toLower, ← List.map_reverse]

/-- A list whose front is trimmed stays front-trimmed after dropping a
suffix (the head, when there is one, is unchanged). -/
theorem dropWhile_of_prefix {α : Type} (p : α → Bool) {u v : List α}
    (hpre : v <+: u) (hu : u.dropWhile p = u) : v.dropWhile p = v := by
  cases v with
  | nil => rfl
  | cons a v' =>
    obtain ⟨w, hw⟩ := hpre
    have hpa : ¬ p a := by
      intro hpa
      have hdw : u.dropWhile p = (v' ++ w).dropWhile p := by
        rw [← hw, List.cons_append, List.dropWhile_cons_of_pos hpa]
      rw [hu] at hdw
      have h1 : u.length = ((v' ++ w).dropWhile p).length := congrArg List.length hdw
      have h2 : ((v' ++ w).dropWhile p).length ≤ (v' ++ w).length :=
        (List.dropWhile_suffix p).sublist.length_le
      have h3 : u.length = v'.length + w.length + 1 := by
        rw [← hw, List.cons_append, List.length_cons, List.length_append]
      have h4 : (v' ++ w).length = v'.length + w.length := List.length_append _ _
      omega
    exact List.dropWhile_cons_of_neg hpa

theorem trimChars_trimChars (l : List Char) :
    trimChars (trimChars l) = trimChars l := by
  -- write the trim as back-trimming after front-trimming
  set p := isJsWs
  have hback : ∀ m : List Char,
      ((m.reverse.dropWhile p).reverse.reverse.dropWhile p).reverse
        = (m.reverse.dropWhile p).reverse := by
    intro m
    rw [List.reverse_reverse, dropWhile_dropWhile]
  have hfront : ∀ m : List Char, m.dropWhile p = m →
      ((m.reverse.dropWhile p).reverse).dropWhile p = (m.reverse.dropWhile p).reverse := by
    intro m hm
    apply dropWhile_of_prefix p _ hm
    rw [← List.reverse_suffix, List.reverse_reverse]
    exact List.dropWhile_suffix p
  show trimChars (((l.dropWhile p).reverse.dropWhile p).reverse)
      = ((l.dropWhile p).reverse.dropWhile p).reverse
  unfold trimChars
  rw [hfront (l.dropWhile p) (dropWhile_dropWhile p l), hback]

theorem normalizeTag_data (s : String) :
    (normalizeTag s).data = (trimChars s.data).map Char.toLower := rfl

theorem normalizeTag_idem (s : String) :
    normalizeTag (normalizeTag s) = normalizeTag s := by
  unfold normalizeTag jsToLower jsTrim
  apply congrArg String.mk
  show ((trimChars ((trimChars s.data).map Char.toLower))).map Char.toLower
      = (trimChars s.data).map Char.toLower
  rw [trimChars_map_toLower, trimChars_trimChars, List.map_map]
  apply List.map_congr_left
  intro a _
  exact toLower_toLower a

/-! ## Lemmas about deduplication -/

theorem mem_dedupeTags {x : String} :
    ∀ (seen l : List String),
      (x ∈ dedupeTags seen l ↔ x ∈ l ∧ x ≠ "" ∧ x ∉ seen)
  | _, [] => by simp [dedupeTags]
  | seen, t :: ts => by
    rw [dedupeTags]
    split_ifs with h
    · rw [mem_dedupeTags seen ts]
      constructor
      · rintro ⟨h1, h2, h3⟩
        exact ⟨List.mem_cons_of_mem _ h1, h2, h3⟩
      · rintro ⟨h1, h2, h3⟩
        rcases List.mem_cons.mp h1 with rfl | h1
        · rcases h with h | h
          · exact absurd h h2
          · exact absurd h h3
        · exact ⟨h1, h2, h3⟩
    · push_neg at h
      rw [List.mem_cons, mem_dedupeTags (t :: seen) ts]
      constructor
      · rintro (rfl | ⟨h1, h2, h3⟩)
        · exact ⟨List.mem_cons_self _ _, h.1, h.2⟩
        · exact ⟨List.mem_cons_of_mem _ h1, h2, fun hx => h3 (List.mem_cons_of_mem _ hx)⟩
      · rintro ⟨h1, h2, h3⟩
        rcases List.mem_cons.mp h1 with rfl | h1
        · exact Or.inl rfl
        · by_cases hxt : x = t
          · exact Or.inl hxt
          · exact Or.inr ⟨h1, h2, fun hx =>
              (List.mem_cons.mp hx).elim hxt h3⟩

theorem dedupeTags_sublist :
    ∀ (seen l : List String), List.Sublist (dedupeTags seen l) l
  | _, [] => List.Sublist.refl _
  | seen, t :: ts => by
    rw [dedupeTags]
    split_ifs with h
    · exact (dedupeTags_sublist seen ts).cons t
    · exact (dedupeTags_sublist (t :: seen) ts).cons₂ t

theorem nodup_dedupeTags : ∀ (seen l : List String), (dedupeTags seen l).Nodup
  | _, [] => List.nodup_nil
  | seen, t :: ts => by
    rw [dedupeTags]
    split_ifs with h
    · exact nodup_dedupeTags seen ts
    · refine List.nodup_cons.mpr ⟨fun hmem => ?_, nodup_dedupeTags (t :: seen) ts⟩
      exact (mem_dedupeTags _ _ |>.mp hmem).2.2 (List.mem_cons_self _ _)

theorem dedupeTags_eq_self :
    ∀ (seen l : List String), l.Nodup → (∀ x ∈ l, x ≠ "" ∧ x ∉ seen) →
      dedupeTags seen l = l
  | _, [], _, _ => rfl
  | seen, t :: ts, hnd, hall => by
    have ht := hall t (List.mem_cons_self _ _)
    rw [dedupeTags, if_neg (by push_neg; exact ht)]
    congr 1
    apply dedupeTags_eq_self _ _ (List.nodup_cons.mp hnd).2
    intro x hx
    have hxt : x ≠ t := fun h => (List.nodup_cons.mp hnd).1 (h ▸ hx)
    have := hall x (List.mem_cons_of_mem _ hx)
    exact ⟨this.1, fun hmem => (List.mem_cons.mp hmem).elim hxt this.2⟩

theorem normalizeTags_idem (tags : List String) :
    normalizeTags (normalizeTags tags) = normalizeTags tags := by
  unfold normalizeTags
  have hfix : ∀ x ∈ dedupeTags [] (tags.map normalizeTag), normalizeTag x = id x := by
    intro x hx
    have hxmem := (mem_dedupeTags [] (tags.map normalizeTag)).mp hx
    obtain ⟨y, _, rfl⟩ := List.mem_map.mp hxmem.1
    exact normalizeTag_idem y
  have hmap : (dedupeTags [] (tags.map normalizeTag)).map normalizeTag
      = dedupeTags [] (tags.map normalizeTag) := by
    rw [List.map_congr_left hfix, List.map_id]
  rw [hmap]
  apply dedupeTags_eq_self
  · exact nodup_dedupeTags _ _
  · intro x hx
    exact ⟨((mem_dedupeTags _ _).mp hx).2.1, List.not_mem_nil x⟩

/-! ## Lemmas about pagination arithmetic -/

theorem ceil_natCast_div (a b : ℕ) (hb : 0 < b) :
    ⌈(a : ℚ) / (b : ℚ)⌉ = (((a + b - 1) / b : ℕ) : ℤ) := by
  have key : a ≤ b * ((a + b - 1) / b) ∧ b * ((a + b - 1) / b) < a + b := by
    have hq := Nat.div_add_mod (a + b - 1) b
    have hr : (a + b - 1) % b < b := Nat.mod_lt _ hb
    omega
  have hbQ : (0 : ℚ) < (b : ℚ) := by exact_mod_cast hb
  apply le_antisymm
  · rw [Int.ceil_le, div_le_iff₀ hbQ]
    push_cast
    rw [mul_comm]
    exact_mod_cast key.1
  · have h2 : (((a + b - 1) / b : ℕ) : ℚ) * (b : ℚ) < (a : ℚ) + (b : ℚ) := by
      rw [mul_comm]
      exact_mod_cast key.2
    have h3 : ((((a + b - 1) / b : ℕ) : ℚ) - 1) * (b : ℚ) < (a : ℚ) := by
      rw [sub_mul, one_mul]
      linarith
    have h4 : (((a + b - 1) / b : ℕ) : ℤ) - 1 < ⌈(a : ℚ) / (b : ℚ)⌉ := by
      rw [Int.lt_ceil]
      push_cast
      rw [lt_div_iff₀ hbQ]
      exact h3
    omega

theorem totalPages_eq (notes : List Note) (ps : ℕ) (hps : 0 < ps) :
    UseNotes.totalPages notes ps = max 1 ((notes.length + ps - 1) / ps) := by
  unfold UseNotes.totalPages
  rw [ceil_natCast_div _ _ hps, Int.toNat_ofNat]

theorem jsSlice_natCast {α : Type} (l : List α) (s ps : ℕ) :
    UseNotes.jsSlice l (s : ℤ) ((s : ℤ) + (ps : ℤ)) = (l.drop s).take ps := by
  unfold UseNotes.jsSlice
  have h1 : ¬ ((s : ℤ) < 0) := by omega
  have h2 : ¬ ((s : ℤ) + (ps : ℤ) < 0) := by omega
  simp only [if_neg h1, if_neg h2]
  rcases le_or_lt (l.length : ℤ) (s : ℤ) with hcase | hcase
  · rw [min_eq_right hcase, min_eq_right (by omega), sub_self]
    have hnil : l.drop s = [] := List.drop_eq_nil_of_le (by exact_mod_cast hcase)
    rw [hnil, Int.toNat_zero, List.take_zero, List.take_nil]
  · rw [min_eq_left (le_of_lt hcase)]
    rcases le_or_lt ((s : ℤ) + (ps : ℤ)) (l.length : ℤ) with hc2 | hc2
    · rw [min_eq_left hc2, add_sub_cancel_left, Int.toNat_ofNat, Int.toNat_ofNat]
    · rw [min_eq_right (le_of_lt hc2), Int.toNat_ofNat]
      have hlen : ((l.length : ℤ) - (s : ℤ)).toNat = l.length - s := by omega
      rw [hlen]
      have hd : (l.drop s).length = l.length - s := List.length_drop _ _
      rw [List.take_of_length_le (by omega), List.take_of_length_le (by omega)]

/-- For pages ≥ 1, `paginatedNotes` is the drop/take slice of the cache. -/
theorem paginatedNotes_eq (notes : List Note) (cp : ℤ) (ps : ℕ) (hcp : 1 ≤ cp) :
    UseNotes.paginatedNotes notes cp ps = (notes.drop ((cp - 1).toNat * ps)).take ps := by
  unfold UseNotes.paginatedNotes
  have hrepr : cp - 1 = (((cp - 1).toNat : ℕ) : ℤ) := by omega
  have hmul : (cp - 1) * (ps : ℤ) = (((cp - 1).toNat * ps : ℕ) : ℤ) := by
    rw [Nat.cast_mul, ← hrepr]
  rw [hmul]
  exact jsSlice_natCast notes ((cp - 1).toNat * ps) ps

/-! ## Lemmas about the mutation operations -/

theorem filter_ne_id (notes : List Note) (i : Int)
    (h : ∀ n ∈ notes, n.id ≠ i) :
    notes.filter (fun n => n.id != i) = notes := by
  apply List.filter_eq_self.mpr
  intro a ha
  simpa using h a ha

theorem map_replace_of_not_mem (notes : List Note) (i : Int) (u : Note)
    (h : ∀ n ∈ notes, n.id ≠ i) :
    (notes.map fun n => if n.id = i then u else n) = notes := by
  have h1 : (notes.map fun n => if n.id = i then u else n) = notes.map id :=
    List.map_congr_left fun n hn => by rw [if_neg (h n hn)]; rfl
  rw [h1, List.map_id]

/-- `createNote` on a failing API call, written out (definitional). -/
theorem createNote_error (s : UseNotes.HookState) (optimisticId : Int) (now : String)
    (cDto : CreateNoteDTO) (msg : String) (rr : Except String (List Note)) :
    UseNotes.createNote s optimisticId now cDto (.error msg) rr
      = ({ s with
            notes := (UseNotes.optimisticNote optimisticId now cDto :: s.notes).filter
              (fun n => n.id != optimisticId),
            error := some msg }, .error msg) := rfl

/-! ## Lemmas about the schema parsers -/

theorem zodStrings_map_str (l : List String) :
    zodStrings (l.map Json.str) = some l := by
  induction l with
  | nil => rfl
  | cons a l ih => simp [zodStrings, zodString, ih]

theorem NoteOutParse_noteJson (n : Note) : NoteOutParse (noteJson n) = some n := by
  have htags : ((noteJson n).getField "tags").bind zodStringArray = some n.tags := by
    show (some (Json.arr (n.tags.map .str))).bind zodStringArray = some n.tags
    show zodStringArray (Json.arr (n.tags.map .str)) = some n.tags
    show zodStrings (n.tags.map Json.str) = some n.tags
    exact zodStrings_map_str n.tags
  show (((noteJson n).getField "tags").bind zodStringArray).bind _ = some n
  rw [htags]
  rfl

theorem TagParse_tagJson (t : Tag) : TagParse (tagJson t) = some t := rfl

theorem NoteInParse_isSome (title content : String) (tags : List String) :
    (NoteInParse title content tags).isSome = true ↔
      (1 ≤ (jsTrim title).length ∧ (jsTrim title).length ≤ 200 ∧
        1 ≤ (jsTrim content).length ∧ (jsTrim content).length ≤ 10000) := by
  rw [show NoteInParse title content tags
      = (if 1 ≤ (jsTrim title).length ∧ (jsTrim title).length ≤ 200 then
          if 1 ≤ (jsTrim content).length ∧ (jsTrim content).length ≤ 10000 then
            some { title := jsTrim title, content := jsTrim content,
                   tags := normalizeTags tags }
          else none
        else none) from rfl]
  split_ifs with h1 h2
  · exact ⟨fun _ => ⟨h1.1, h1.2, h2.1, h2.2⟩, fun _ => rfl⟩
  · exact ⟨fun h => absurd h (by simp), fun h => absurd ⟨h.2.2.1, h.2.2.2⟩ h2⟩
  · exact ⟨fun h => absurd h (by simp), fun h => absurd ⟨h.1, h.2.1⟩ h1⟩

theorem TagInParse_isSome (name : String) :
    (TagInParse name).isSome = true ↔
      (1 ≤ (jsToLower (jsTrim name)).length ∧ (jsToLower (jsTrim name)).length ≤ 50) := by
  rw [show TagInParse name
      = (if 1 ≤ (jsToLower (jsTrim name)).length ∧ (jsToLower (jsTrim name)).length ≤ 50
        then some (jsToLower (jsTrim name)) else none) from rfl]
  split_ifs with h
  · exact ⟨fun _ => ⟨h.1, h.2⟩, fun _ => rfl⟩
  · exact ⟨fun hs => absurd hs (by simp), fun hs => absurd hs h⟩

/-! ## Claims -/

/-- C1 (amended): when the API call of a mutation fails, `updateNote` and
`deleteNote` end in exactly the pre-mutation state with the failure's
message as the error value and the failure re-thrown; `createNote` does the
same provided its locally generated optimistic id does not collide with the
id of a cached note (its rollback removes every note carrying that id). -/
theorem C1_mutation_failure_semantics (s : UseNotes.HookState)
    (cDto : CreateNoteDTO) (uDto : UpdateNoteDTO) (optimisticId targetId : Int)
    (now msg : String) (rr : Except String (List Note))
    (hopt : ∀ n ∈ s.notes, n.id ≠ optimisticId) :
    UseNotes.updateNote s targetId uDto now (.error msg)
        = ({ s with error := some msg }, .error msg) ∧
    UseNotes.deleteNote s targetId (.error msg)
        = ({ s with error := some msg }, .error msg) ∧
    UseNotes.createNote s optimisticId now cDto (.error msg) rr
        = ({ s with error := some msg }, .error msg) := by
  refine ⟨rfl, rfl, ?_⟩
  rw [createNote_error]
  have hfil : (UseNotes.optimisticNote optimisticId now cDto :: s.notes).filter
      (fun n => n.id != optimisticId) = s.notes := by
    rw [List.filter_cons]
    have hopt_id : ((UseNotes.optimisticNote optimisticId now cDto).id != optimisticId)
        = false := by
      simp [UseNotes.optimisticNote]
    rw [hopt_id]
    simp only [Bool.false_eq_true, if_false]
    exact filter_ne_id s.notes optimisticId hopt
  rw [hfil]

/-- C1 witness: a concrete failing run of each mutation at a state whose
note ids avoid the optimistic id. -/
theorem C1_mutation_failure_semantics_witness :
    UseNotes.createNote pageState 1000 "2025-02-02"
        { title := "t", content := "c", tags := [] } (.error "boom") (.ok [])
      = ({ pageState with error := some "boom" }, .error "boom") :=
  (C1_mutation_failure_semantics pageState
    { title := "t", content := "c", tags := [] }
    { title := "t", content := "c", tags := [] }
    1000 3 "2025-02-02" "boom" (.ok []) (by decide)).2.2

/-- C1 counterexample: the claim as stated fails for `createNote` when the
generated optimistic id equals a cached note's id — the rollback filter
also removes that pre-existing note, so the cache is not restored to its
pre-mutation snapshot. -/
theorem C1_counterexample :
    (UseNotes.createNote collideState 5 "2025-02-02"
        { title := "t", content := "c", tags := [] } (.error "boom") (.ok [])).1.notes
      ≠ collideState.notes := by
  decide

/-- C2: the tags pipeline of the input schema produces a duplicate-free
subsequence of the trimmed-and-lowercased inputs, keeps every nonempty
normalized tag, contains no empty strings and only normalization fixed
points, is idempotent, and sends `[" Work ", "work", "WORK"]` to
`["work"]`. -/
theorem C2_tag_normalization :
    (∀ tags : List String,
      (normalizeTags tags).Nodup ∧
      List.Sublist (normalizeTags tags) (tags.map normalizeTag) ∧
      (∀ x ∈ normalizeTags tags, x ≠ "" ∧ normalizeTag x = x) ∧
      (∀ y ∈ tags, normalizeTag y ≠ "" → normalizeTag y ∈ normalizeTags tags) ∧
      normalizeTags (normalizeTags tags) = normalizeTags tags) ∧
    normalizeTags [" Work ", "work", "WORK"] = ["work"] := by
  refine ⟨fun tags => ⟨nodup_dedupeTags _ _, dedupeTags_sublist _ _, ?_, ?_, normalizeTags_idem tags⟩, by decide⟩
  · intro x hx
    have hmem := (mem_dedupeTags _ _).mp hx
    obtain ⟨y, _, rfl⟩ := List.mem_map.mp hmem.1
    exact ⟨hmem.2.1, normalizeTag_idem y⟩
  · intro y hy hne
    exact (mem_dedupeTags _ _).mpr
      ⟨List.mem_map_of_mem normalizeTag hy, hne, List.not_mem_nil _⟩

/-- C2 witness: the theorem applied at the spec's concrete input. -/
theorem C2_tag_normalization_witness :
    normalizeTags (normalizeTags [" Work ", "work", "WORK"])
      = normalizeTags [" Work ", "work", "WORK"] :=
  (C2_tag_normalization.1 [" Work ", "work", "WORK"]).2.2.2.2

/-- C3: for a positive page size, `totalPages` is `max 1` of the ceiling
division of the item count, the displayed page (for pages ≥ 1) is the slice
dropping `(currentPage-1)*pageSize` items and taking `pageSize`, and with
20 items and page size 9 there are 3 pages of which page 3 holds exactly 2
items. -/
theorem C3_pagination_derivation (notes : List Note) (ps : ℕ) (cp : ℤ)
    (hps : 0 < ps) (hcp : 1 ≤ cp) :
    UseNotes.totalPages notes ps = max 1 ((notes.length + ps - 1) / ps) ∧
    UseNotes.paginatedNotes notes cp ps = (notes.drop ((cp - 1).toNat * ps)).take ps ∧
    (notes.length = 20 → ps = 9 →
      UseNotes.totalPages notes ps = 3 ∧
      (cp = 3 → (UseNotes.paginatedNotes notes cp ps).length = 2)) := by
  refine ⟨totalPages_eq notes ps hps, paginatedNotes_eq notes cp ps hcp, ?_⟩
  intro h20 h9
  subst h9
  constructor
  · rw [totalPages_eq notes 9 hps, h20]
    decide
  · intro h3
    subst h3
    rw [paginatedNotes_eq notes 3 9 hcp, List.length_take, List.length_drop, h20]
    decide

/-- C3 witness: the 20-item, page-size-9 instance evaluated on a concrete
note list. -/
theorem C3_pagination_derivation_witness :
    UseNotes.totalPages (sampleNotes 20) 9 = 3 ∧
    (UseNotes.paginatedNotes (sampleNotes 20) 3 9).length = 2 := by
  have h := (C3_pagination_derivation (sampleNotes 20) 9 3 (by decide) (by decide)).2.2
    (by decide) rfl
  exact ⟨h.1, h.2 rfl⟩

/-- C4 (amended): relative navigation is clamped — starting from a page in
`[1, totalPages]`, `nextPage` and `prevPage` stay in `[1, totalPages]`, and
at the respective boundary each is a no-op rather than an error; the direct
`setCurrentPage` setter applies no clamping. -/
theorem C4_next_prev_clamped (s : UseNotes.HookState)
    (h1 : 1 ≤ s.currentPage)
    (h2 : s.currentPage ≤ (UseNotes.totalPages s.notes s.pageSize : ℤ)) :
    (1 ≤ (UseNotes.nextPage s).currentPage ∧
      (UseNotes.nextPage s).currentPage ≤ (UseNotes.totalPages s.notes s.pageSize : ℤ)) ∧
    (1 ≤ (UseNotes.prevPage s).currentPage ∧
      (UseNotes.prevPage s).currentPage ≤ (UseNotes.totalPages s.notes s.pageSize : ℤ)) ∧
    (s.currentPage = (UseNotes.totalPages s.notes s.pageSize : ℤ) →
      (UseNotes.nextPage s).currentPage = s.currentPage) ∧
    (s.currentPage = 1 → (UseNotes.prevPage s).currentPage = s.currentPage) := by
  simp only [UseNotes.nextPage, UseNotes.prevPage, UseNotes.setCurrentPage]
  omega

/-- C4 witness: at page 1 of the 20-note state, `prevPage` is a no-op. -/
theorem C4_next_prev_clamped_witness :
    (UseNotes.prevPage pageState).currentPage = pageState.currentPage := by
  have htp : UseNotes.totalPages pageState.notes pageState.pageSize = 3 := by
    rw [show pageState.pageSize = 9 from rfl, totalPages_eq pageState.notes 9 (by decide),
      show pageState.notes.length = 20 from by decide]
    decide
  exact (C4_next_prev_clamped pageState (by decide) (by rw [htp]; decide)).2.2.2 rfl

/-- C4 counterexample: the claim as stated fails for the hook's direct
`setCurrentPage`, which performs no clamp — requesting page 0 yields page
0 (not 1) and page 4 with `totalPages = 3` yields page 4 (not 3). -/
theorem C4_counterexample :
    UseNotes.totalPages pageState.notes pageState.pageSize = 3 ∧
    (UseNotes.setCurrentPage pageState 0).currentPage = 0 ∧
    (UseNotes.setCurrentPage pageState 4).currentPage = 4 := by
  refine ⟨?_, rfl, rfl⟩
  rw [show pageState.pageSize = 9 from rfl, totalPages_eq pageState.notes 9 (by decide),
    show pageState.notes.length = 20 from by decide]
  decide

/-- C5: a filter change (through the page-reset effect) and a page-size
change each set the current page back to 1, from any state. -/
theorem C5_filter_pageSize_reset (s : UseNotes.HookState) (f : NoteFilters)
    (size : ℕ) :
    (UseNotes.setFilters s f).currentPage = 1 ∧
    (UseNotes.setPageSize s size).currentPage = 1 :=
  ⟨rfl, rfl⟩

/-- C6 (amended): the length/emptiness constraints are enforced at
input-construction time only — `NoteInSchema` accepts exactly trimmed
titles of 1–200 characters with trimmed contents of 1–10000 characters and
`TagInSchema` accepts exactly trimmed lowercased names of 1–50 (not 100)
characters — while at response-acceptance time `NoteOutSchema` and
`TagSchema` check shape only, accepting every well-shaped note and tag. -/
theorem C6_validation_layers :
    (∀ title content : String, ∀ tags : List String,
      (NoteInParse title content tags).isSome = true ↔
        (1 ≤ (jsTrim title).length ∧ (jsTrim title).length ≤ 200 ∧
          1 ≤ (jsTrim content).length ∧ (jsTrim content).length ≤ 10000)) ∧
    (∀ name : String,
      (TagInParse name).isSome = true ↔
        (1 ≤ (jsToLower (jsTrim name)).length ∧ (jsToLower (jsTrim name)).length ≤ 50)) ∧
    (∀ n : Note, NoteOutParse (noteJson n) = some n) ∧
    (∀ t : Tag, TagParse (tagJson t) = some t) :=
  ⟨NoteInParse_isSome, TagInParse_isSome, NoteOutParse_noteJson, TagParse_tagJson⟩

/-- C6 witness: a valid payload is accepted by the input schema. -/
theorem C6_validation_layers_witness :
    (NoteInParse "Title" "Content" []).isSome = true :=
  (C6_validation_layers.1 "Title" "Content" []).mpr (by decide)

/-- C6 counterexample: the claim as stated fails twice — a response whose
note has an empty title is accepted by the response schema, and a 60
character tag name (within the claimed 100-character bound) is rejected by
the input schema, whose bound is 50. -/
theorem C6_counterexample :
    (NoteOutParse (noteJson emptyTitleNote)).isSome = true ∧
    emptyTitleNote.title = "" ∧
    TagInParse (String.mk (List.replicate 60 'a')) = none := by
  refine ⟨rfl, rfl, by decide⟩

/-- C7: an input that fails local schema validation makes `createNote`,
`updateNote` and `createTag` return the input-validation error with no
request ever issued, whatever the network would have answered. -/
theorem C7_local_validation_no_request (cDto : CreateNoteDTO) (uDto : UpdateNoteDTO)
    (name : String) (id : Int) (outcome : FetchOutcome)
    (hc : NoteInParse cDto.title cDto.content cDto.tags = none)
    (hu : NoteInParse uDto.title uDto.content uDto.tags = none)
    (ht : TagInParse name = none) :
    Client.createNote cDto outcome = (.error .invalidInput, none) ∧
    Client.updateNote id uDto outcome = (.error .invalidInput, none) ∧
    Client.createTag name outcome = (.error .invalidInput, none) := by
  unfold Client.createNote Client.updateNote Client.createTag
  rw [hc, hu, ht]
  exact ⟨rfl, rfl, rfl⟩

/-- C7 witness: an empty title and an empty tag name never reach the
network. -/
theorem C7_local_validation_no_request_witness :
    Client.createNote { title := "", content := "valid content", tags := [] }
        .networkFailure = (.error .invalidInput, none) :=
  (C7_local_validation_no_request
    { title := "", content := "valid content", tags := [] }
    { title := "", content := "valid content", tags := [] }
    "" 1 .networkFailure (by decide) (by decide) (by decide)).1

/-- C8: the mock `POST /tags/` handler answers a name that already exists
(here `test`, seeded in the initial mock state) with HTTP 400 `Tag already
exists` and leaves the store unchanged, instead of returning the existing
tag as the documented create-or-get contract requires. -/
theorem C8_post_tags_existing_conflict :
    postTags initialMockState (Json.obj [("name", Json.str "test")])
      = some (initialMockState, 400,
          Json.obj [("message", Json.str "Tag already exists")]) := by
  rfl

/-- C9 (amended): when no cached note carries the target id, the optimistic
phase of `updateNote` leaves the cached note list unchanged — the note
merged from the empty object is never inserted — and its only state change
is resetting the error value to null. -/
theorem C9_update_unknown_id (s : UseNotes.HookState) (id : Int)
    (noteData : UpdateNoteDTO) (now : String)
    (h : ∀ n ∈ s.notes, n.id ≠ id) :
    (UseNotes.updateNoteOptimistic s id noteData now).notes = s.notes ∧
    UseNotes.updateNoteOptimistic s id noteData now = { s with error := none } := by
  have hmain : UseNotes.updateNoteOptimistic s id noteData now = { s with error := none } := by
    unfold UseNotes.updateNoteOptimistic
    rw [map_replace_of_not_mem s.notes id (UseNotes.mergedNote s id noteData now) h]
  exact ⟨by rw [hmain], hmain⟩

/-- C9 witness: updating the absent id 99 on the empty-cache state. -/
theorem C9_update_unknown_id_witness :
    (UseNotes.updateNoteOptimistic errState 99
        { title := "t", content := "c", tags := [] } "2025-02-02").notes
      = errState.notes :=
  (C9_update_unknown_id errState 99 { title := "t", content := "c", tags := [] }
    "2025-02-02" (by decide)).1

/-- C9 counterexample: the claim's "mutates no local state" fails — the
optimistic phase clears a pending error value even when the id is absent
from the cache. -/
theorem C9_counterexample :
    (UseNotes.updateNoteOptimistic errState 99
        { title := "t", content := "c", tags := [] } "2025-02-02") ≠ errState := by
  decide

/-- C10: `refreshNotes` clears the error and raises `isLoading` on entry,
ends with `isLoading` false on both paths, and leaves a null error with the
fetched notes on success versus an unchanged cache with the message on
failure. -/
theorem C10_refresh_semantics (s : UseNotes.HookState) (fetched : List Note)
    (msg : String) (r : Except String (List Note)) :
    (UseNotes.refreshNotesEntry s).error = none ∧
    (UseNotes.refreshNotesEntry s).isLoading = true ∧
    (UseNotes.refreshNotes s r).isLoading = false ∧
    (UseNotes.refreshNotes s (.ok fetched)).error = none ∧
    (UseNotes.refreshNotes s (.ok fetched)).notes = fetched ∧
    (UseNotes.refreshNotes s (.error msg)).notes = s.notes ∧
    (UseNotes.refreshNotes s (.error msg)).error = some msg := by
  refine ⟨rfl, rfl, ?_, rfl, rfl, rfl, rfl⟩
  cases r <;> rfl

end MagicNotes
